import Mathlib

/-!
Verification of the sentence/quiz generation engine of the sanskrit-backend
repository: the morphological synthesis pipeline in `dataset/gen.py` and
`dataset/mtc_gen.py`, and the two distractor generators in
`servers/verb_game.py` and `servers/mtcGame.py`.

Modelling conventions:
* Python dicts loaded from JSON become association lists `List (String × α)`;
  `d[k]` / `d.get(k)` become `List.lookup`; an uncaught `KeyError` /
  `AttributeError` / `IndexError` is modelled by an `Option`-valued function
  returning `none`.
* An absent JSON key (e.g. a verb record without `past_stem`) is modelled by
  an `Option` field holding `none`, so Python's `d.get(k, default)` becomes
  `Option.getD`.
* The declension and conjugation tables are loaded at module level from data
  files (`declensions.py`, `conjugations.json`) that are not part of the
  source tree; they are modelled as an explicit environment argument `Env`
  threaded through the functions that read them.
* Field names ending in the word `class` in the Python source are rendered
  with the abbreviation `cls` (`verb_class` becomes `verb_cls`, etc.).
-/

/-- Python `s.endswith(c)` for a single character `c`: the last character of
`s` is `c`. -/
def ends_in (c : Char) (s : String) : Bool := s.data.getLast? == some c

/-- Python `s[:-1]`: drop the last character. -/
def drop_last (s : String) : String := ⟨s.data.dropLast⟩

/-- Python `s.replace(c, "")` for a single character `c`: remove every
occurrence of `c`. -/
def remove_every (c : Char) (s : String) : String := ⟨s.data.filter (fun x => x ≠ c)⟩

/-- A flattened noun record, as built from `nouns.json` in `dataset/gen.py`
(lines 14-27): `gender`/`stem_type` are `none` when the group key says
`none`, and the mutable `number` key is absent (`none`) until the
synthesizer assigns it. -/
structure Noun where
  root : String
  gender : Option String
  stem_type : Option String
  entity_classes : List String
  usable_as_subject : Bool
  usable_as_object : Bool
  number : Option String
deriving Repr, DecidableEq

/-- A flattened verb record, as built from `verbs.json` in `dataset/gen.py`
(lines 37-41): optional stem overrides are `none` when the JSON key is
absent.  For records loaded by `servers/verb_game.py`'s `load_verbs` the
stem keys are always present, and `none` models a key whose value is
`None`. -/
structure Verb where
  root : String
  verb_cls : String
  future_stem : Option String
  past_stem : Option String
  requires_object : Bool
  allowed_subject_cls : List String
  allowed_object_cls : List String
  meaning : Option String
deriving Repr, DecidableEq

/-- One declension table: mapping case (vibhakti) to the ordered suffix
triple indexed by number. -/
abbrev DeclTable := List (String × List String)

/-- The conjugation tables: tense to verb class to `"person_number"` key to
suffix. -/
abbrev Conj := List (String × List (String × List (String × String)))

/-- The module-level reference data of `dataset/gen.py`: the five tables
imported from `declensions.py` and the contents of `conjugations.json`.
These files are not part of the source tree, so the tables are carried as an
explicit environment. -/
structure Env where
  a_stem_masc_declension : DeclTable
  aa_stem_fem_declension : DeclTable
  a_stem_neut_declension : DeclTable
  asmad_declension : DeclTable
  yushmad_declension : DeclTable
  conjugations : Conj
deriving Repr

/-- `declension_map` of `dataset/gen.py` lines 44-48: dictionary keyed by
(gender, stem-type) pairs holding the three regular declension tables. -/
def declension_map (env : Env) (gender stem : Option String) : Option DeclTable :=
  if gender = some "masc" ∧ stem = some "अ" then some env.a_stem_masc_declension
  else if gender = some "fem" ∧ stem = some "आ" then some env.aa_stem_fem_declension
  else if gender = some "neut" ∧ stem = some "अ" then some env.a_stem_neut_declension
  else none

/-- `role_to_vibhakti` of `dataset/gen.py` lines 50-53; `d[role]` raises on
any other role, hence the `Option`. -/
def role_to_vibhakti (role : String) : Option String :=
  if role = "subject" then some "प्रथमा"
  else if role = "object" then some "द्वितीया"
  else none

/-- `number_index` of `dataset/gen.py` lines 55-59; `d[number]` raises on
any other number, hence the `Option`. -/
def number_index (number : String) : Option Nat :=
  if number = "sg" then some 0
  else if number = "du" then some 1
  else if number = "pl" then some 2
  else none

/-- `inflect_noun` of `dataset/gen.py` lines 61-83.  Returns `none` exactly
when the Python function would raise (unknown number or role, list index
out of range, or a pronoun case missing from its irregular table); the
silent bare-root fallback of lines 75-76 is the `some root` branch.  Note
that Python's `not decl_table` is also true for an empty table. -/
def inflect_noun (env : Env) (noun : Noun) (role : String) : Option String := do
  let root := noun.root
  let number := noun.number.getD "sg"
  let index ← number_index number
  let vibhakti ← role_to_vibhakti role
  if root = "अस्मद्" then do
    let row ← List.lookup vibhakti env.asmad_declension
    row.get? index
  else if root = "युष्मद्" then do
    let row ← List.lookup vibhakti env.yushmad_declension
    row.get? index
  else
    match declension_map env noun.gender noun.stem_type with
    | none => some root
    | some dt =>
      if dt = [] then some root
      else
        match List.lookup vibhakti dt with
        | none => some root
        | some row => do
          let suffix ← row.get? index
          if noun.gender = some "fem" ∧ noun.stem_type = some "आ" then
            some ((if ends_in 'ा' root then drop_last root else root) ++ suffix)
          else
            some (root ++ suffix)

/-- The triple dictionary lookup `conjugations[tense][verb_class][key]` of
`dataset/gen.py` line 90; `none` models the `KeyError` caught there. -/
def lookup3 (conj : Conj) (tense vcls key : String) : Option String := do
  let by_cls ← List.lookup tense conj
  let by_key ← List.lookup vcls by_cls
  List.lookup key by_key

/-- The tense-dependent stem selection of `dataset/gen.py` lines 94-100. -/
def select_stem (verb : Verb) (tense : String) : String :=
  if tense = "future" then verb.future_stem.getD verb.root
  else if tense = "past" then verb.past_stem.getD verb.root
  else verb.root

/-- The conditional halant strip of `dataset/gen.py` lines 102-105: drop a
trailing inherent-vowel-suppression marker for everything except
present-tense 4P verbs. -/
def drop_halant (tense vcls stem : String) : String :=
  if ¬(tense = "present" ∧ vcls = "4P") then
    if ends_in '्' stem then drop_last stem else stem
  else stem

/-- `get_verb_form` of `dataset/gen.py` lines 85-107: suffix lookup with
bare-root fallback, stem selection, conditional halant strip, and
concatenation after removing the `A` placeholder from the suffix. -/
def get_verb_form (conj : Conj) (verb : Verb) (person number tense : String) : String :=
  let key := person ++ "_" ++ number
  match lookup3 conj tense verb.verb_cls key with
  | none => verb.root
  | some suffix =>
      drop_halant tense verb.verb_cls (select_stem verb tense) ++ remove_every 'A' suffix

/-- The filter predicate of `get_valid_nouns` (`dataset/gen.py` lines
109-114). -/
def qualifies (noun : Noun) (ecls role : String) : Bool :=
  noun.entity_classes.contains ecls &&
    (if role = "subject" then noun.usable_as_subject else noun.usable_as_object)

/-- `get_valid_nouns` of `dataset/gen.py` lines 109-114: the filtered copies
of the module-level noun list. -/
def get_valid_nouns (nouns : List Noun) (ecls role : String) : List Noun :=
  nouns.filter (fun n => qualifies n ecls role)

/-- Sequence an `Option`-valued function over a list, failing on the first
failure: the effect of a Python `for` loop whose body may raise. -/
def mapM_opt {α β : Type} (f : α → Option β) : List α → Option (List β)
  | [] => some []
  | x :: xs => do
    let y ← f x
    let ys ← mapM_opt f xs
    pure (y :: ys)

/-- The nested subject dictionary of a sentence record
(`dataset/gen.py` lines 140-147 and 170-177; same shape for the object,
lines 148-155). -/
structure SubjectInfo where
  root : String
  form : String
  number : String
  person : String
  gender : Option String
  stem : Option String
deriving Repr, DecidableEq

/-- The nested verb dictionary of a sentence record (`dataset/gen.py` lines
156-163; `class` is rendered `vcls`). -/
structure VerbInfo where
  root : String
  form : String
  person : String
  number : String
  vcls : String
  meaning : String
deriving Repr, DecidableEq

/-- One record appended by `generate_sentence_for_verb`
(`dataset/gen.py` lines 137-164 and 167-187); `object` is `None` in the
no-object branch. -/
structure SentenceRecord where
  sentence : String
  tense : String
  subject : SubjectInfo
  object : Option SubjectInfo
  verb : VerbInfo
deriving Repr, DecidableEq

/-- The person map of `dataset/gen.py` line 126: the two pronoun roots map
to first and second person, everything else defaults to third. -/
def person_for (root : String) : String :=
  if root = "अस्मद्" then "1" else if root = "युष्मद्" then "2" else "3"

/-- The fixed number iteration order `["sg", "du", "pl"]` of
`dataset/gen.py` lines 124 and 133. -/
def numbers_list : List String := ["sg", "du", "pl"]

/-- The object expansion of `dataset/gen.py` lines 131-164: for each allowed
object class, each valid object noun and each object number, inflect the
object (as a copy carrying the assigned number) and emit the
subject-object-verb record.  `none` models an exception escaping
`inflect_noun`. -/
def object_records (env : Env) (nouns : List Noun) (verb : Verb)
    (tense : String) (subject : Noun) (subject_form number person verb_form : String) :
    Option (List SentenceRecord) := do
  let per_cls ← mapM_opt (fun obj_cls => do
    let per_obj ← mapM_opt (fun obj => do
      let per_num ← mapM_opt (fun obj_number => do
        let obj := { obj with number := some obj_number }
        let object_form ← inflect_noun env obj "object"
        pure { sentence := subject_form ++ " " ++ object_form ++ " " ++ verb_form,
               tense := tense,
               subject := { root := subject.root, form := subject_form, number := number,
                            person := person, gender := subject.gender,
                            stem := subject.stem_type },
               object := some { root := obj.root, form := object_form, number := obj_number,
                                person := "3", gender := obj.gender, stem := obj.stem_type },
               verb := { root := verb.root, form := verb_form, person := person,
                         number := number, vcls := verb.verb_cls,
                         meaning := verb.meaning.getD "" } }) numbers_list
      pure per_num) (get_valid_nouns nouns obj_cls "object")
    pure per_obj.flatten) verb.allowed_object_cls
  pure per_cls.flatten

/-- `generate_sentence_for_verb` of `dataset/gen.py` lines 116-188: for each
allowed subject class, each valid subject noun and each number, assign the
number on the noun copy, inflect subject and verb, then either expand over
objects or emit the subject-verb record.  `none` models an exception
escaping `inflect_noun`. -/
def generate_sentence_for_verb (env : Env) (nouns : List Noun) (verb : Verb)
    (tense : String) : Option (List SentenceRecord) := do
  let per_cls ← mapM_opt (fun subj_cls => do
    let per_sub ← mapM_opt (fun subject => do
      let per_num ← mapM_opt (fun number => do
        let subject := { subject with number := some number }
        let person := person_for subject.root
        let subject_form ← inflect_noun env subject "subject"
        let verb_form := get_verb_form env.conjugations verb person number tense
        if verb.requires_object then
          object_records env nouns verb tense subject subject_form number person verb_form
        else
          pure [{ sentence := subject_form ++ " " ++ verb_form,
                  tense := tense,
                  subject := { root := subject.root, form := subject_form, number := number,
                               person := person, gender := subject.gender,
                               stem := subject.stem_type },
                  object := none,
                  verb := { root := verb.root, form := verb_form, person := person,
                            number := number, vcls := verb.verb_cls,
                            meaning := verb.meaning.getD "" } }]) numbers_list
      pure per_num.flatten) (get_valid_nouns nouns subj_cls "subject")
    pure per_sub.flatten) verb.allowed_subject_cls
  pure per_cls.flatten

example :
    get_verb_form [("present", [("1P", [("3_sg", "Aति")])])]
      { root := "गम्", verb_cls := "1P", future_stem := none, past_stem := none,
        requires_object := false, allowed_subject_cls := [], allowed_object_cls := [],
        meaning := none } "3" "sg" "present" = "गमति" := by decide

example :
    get_verb_form [("present", [("4P", [("3_sg", "यति")])])]
      { root := "दिव्", verb_cls := "4P", future_stem := none, past_stem := none,
        requires_object := false, allowed_subject_cls := [], allowed_object_cls := [],
        meaning := none } "3" "sg" "present" = "दिव्यति" := by decide

/-- The verb dictionary of a matching-game pair (`dataset/mtc_gen.py` lines
137-146): a `VerbInfo` additionally tagged with its tense. -/
structure MtcVerbInfo where
  root : String
  form : String
  person : String
  number : String
  vcls : String
  meaning : String
  tense : String
deriving Repr, DecidableEq

/-- One pair appended by `generate_subject_verb_pairs`
(`dataset/mtc_gen.py` lines 128-146), the input shape of
`create_matching_game_data`. -/
structure MtcPair where
  subject : SubjectInfo
  verb : MtcVerbInfo
deriving Repr, DecidableEq

/-- An aggregated matching-game entry (`dataset/mtc_gen.py` lines 161-168).
The two form dictionaries are association lists because Python happily adds
a fresh key when a pair carries a number outside `{sg, du, pl}`. -/
structure MtcEntry where
  subject_root : String
  verb_root : String
  tense : String
  subject_forms : List (String × Option String)
  verb_forms : List (String × Option String)
  meaning : String
deriving Repr, DecidableEq

/-- Python `d[k] = v` on a string-keyed dict: replace the value at the first
occurrence of `k`, keeping its position, or append `(k, v)` when absent. -/
def dict_set {α : Type} (l : List (String × α)) (k : String) (v : α) :
    List (String × α) :=
  match l with
  | [] => [(k, v)]
  | (k', v') :: rest => if k' = k then (k, v) :: rest else (k', v') :: dict_set rest k v

/-- Python in-place update of the value stored at key `k` (a no-op when `k`
is absent). -/
def dict_modify {α : Type} (l : List (String × α)) (k : String) (f : α → α) :
    List (String × α) :=
  match l with
  | [] => []
  | (k', v') :: rest => if k' = k then (k', f v') :: rest else (k', v') :: dict_modify rest k f

/-- The initial `{"sg": None, "du": None, "pl": None}` form slots of
`dataset/mtc_gen.py` lines 165-166. -/
def initial_forms : List (String × Option String) := [("sg", none), ("du", none), ("pl", none)]

/-- One iteration of the grouping loop of `create_matching_game_data`
(`dataset/mtc_gen.py` lines 153-172): create a fresh entry (in insertion
order) the first time a `subjRoot_verbRoot_tense` key is seen, then write
the pair's subject and verb forms into the slot named by the pair's subject
number. -/
def game_step (gd : List (String × MtcEntry)) (pair : MtcPair) :
    List (String × MtcEntry) :=
  let key := pair.subject.root ++ "_" ++ pair.verb.root ++ "_" ++ pair.verb.tense
  let gd :=
    if (List.lookup key gd).isNone then
      gd ++ [(key, { subject_root := pair.subject.root, verb_root := pair.verb.root,
                     tense := pair.verb.tense, subject_forms := initial_forms,
                     verb_forms := initial_forms, meaning := pair.verb.meaning })]
    else gd
  dict_modify gd key (fun e =>
    { e with
      subject_forms := dict_set e.subject_forms pair.subject.number (some pair.subject.form),
      verb_forms := dict_set e.verb_forms pair.subject.number (some pair.verb.form) })

/-- The grouping phase of `create_matching_game_data`
(`dataset/mtc_gen.py` lines 151-172): fold the per-pair step over the input
in order. -/
def build_game_data (pairs : List MtcPair) : List (String × MtcEntry) :=
  pairs.foldl game_step []

/-- Python truthiness of a form slot: `None` and the empty string are falsy. -/
def truthy_form : Option String → Bool
  | none => false
  | some s => !(s = "")

/-- The completeness filter of `create_matching_game_data`
(`dataset/mtc_gen.py` line 177): `all(...)` over the values of both form
dictionaries. -/
def entry_complete (e : MtcEntry) : Bool :=
  e.subject_forms.all (fun p => truthy_form p.2) && e.verb_forms.all (fun p => truthy_form p.2)

/-- `create_matching_game_data` of `dataset/mtc_gen.py` lines 149-180:
group the pairs, then keep only the entries whose form dictionaries are
fully populated. -/
def create_matching_game_data (pairs : List MtcPair) : List MtcEntry :=
  ((build_game_data pairs).map Prod.snd).filter entry_complete

/-- The six named slots of the claimed completeness invariant: subject and
verb forms for each of sg, du, pl are present and non-empty. -/
def six_populated (e : MtcEntry) : Bool :=
  truthy_form ((List.lookup "sg" e.subject_forms).join) &&
  truthy_form ((List.lookup "du" e.subject_forms).join) &&
  truthy_form ((List.lookup "pl" e.subject_forms).join) &&
  truthy_form ((List.lookup "sg" e.verb_forms).join) &&
  truthy_form ((List.lookup "du" e.verb_forms).join) &&
  truthy_form ((List.lookup "pl" e.verb_forms).join)

/-- One character of the Devanagari Unicode block U+0900 to U+097F. -/
def in_deva_block (c : Char) : Bool := 0x900 ≤ c.toNat && c.toNat ≤ 0x97F

/-- The check `re.match(r'^[ऀ-ॿ]+$', form)` of
`servers/verb_game.py` line 179: a non-empty run of Devanagari-block
characters; Python's `$` also matches just before a single trailing
newline. -/
def deva_match (s : String) : Bool :=
  (!s.data.isEmpty && s.data.all in_deva_block) ||
  (s.data.getLast? == some '\n' && !s.data.dropLast.isEmpty &&
    s.data.dropLast.all in_deva_block)

/-- The stem resolution of `servers/verb_game.py` lines 146-156.
`load_verbs` (lines 92-101) always materializes the `past_stem` and
`future_stem` keys, setting them to `None` when the source document lacks
them, so `matching.get("past_stem", root)` returns that possibly-`None`
value and the `root` default is dead code: for a past/future request on a
record whose override is null, the strip line `stem.endswith(...)` raises
`AttributeError` on `None` — modelled by a `none` result.  Otherwise the
selected stem undergoes the same conditional halant strip as
`get_verb_form`. -/
def vg_stem (root : String) (matching : Verb) (tense vcls : String) : Option String :=
  let stem : Option String :=
    if tense = "past" then matching.past_stem
    else if tense = "future" then matching.future_stem
    else some root
  if ¬(tense = "present" ∧ vcls = "4P") then
    stem.map (fun s => if ends_in '्' s then drop_last s else s)
  else stem

/-- The nine person/number keys of `servers/verb_game.py` lines 159-163. -/
def vg_person_numbers : List String :=
  ["1_sg", "2_sg", "3_sg", "1_du", "2_du", "3_du", "1_pl", "2_pl", "3_pl"]

/-- The candidate loop of `servers/verb_game.py` lines 168-185: walk the
(randomly ordered) candidate keys, skip missing or empty suffixes, build
`stem + suffix` with the `A` placeholder removed, accept a form only if it
differs from the correct form, is not already accepted and passes the
Devanagari check, and stop as soon as two forms are accepted. -/
def vg_loop (suffix_map : List (String × String)) (stem correct_form : String) :
    List String → List String → List String
  | [], acc => acc
  | pn :: rest, acc =>
    match List.lookup pn suffix_map with
    | none => vg_loop suffix_map stem correct_form rest acc
    | some suffix =>
      if suffix = "" then vg_loop suffix_map stem correct_form rest acc
      else
        let form := stem ++ remove_every 'A' suffix
        let acc :=
          if form ≠ correct_form ∧ form ∉ acc ∧ deva_match form then acc ++ [form] else acc
        if 2 ≤ acc.length then acc else vg_loop suffix_map stem correct_form rest acc

/-- `generate_distractors` of `servers/verb_game.py` lines 134-197 (the
key-restricted variant capped at two distractors).  The `order` argument
stands for `random.sample(available_person_numbers, len(...))`, the
randomly permuted candidate key sequence of line 170; both return branches
of lines 191 and 194 truncate with `[:2]`.  When the stem resolution
raises (`vg_stem` is `none`), the function-level `try` of lines 135 and
195-197 catches the `AttributeError` and returns the empty list. -/
def generate_distractors_vg (conj : Conj) (verbs : List Verb)
    (correct_form root vcls tense : String) (order : List String) : List String :=
  match List.lookup tense conj with
  | none => []
  | some by_cls =>
    match List.lookup vcls by_cls with
    | none => []
    | some suffix_map =>
      match verbs.find? (fun v => v.root == root && v.verb_cls == vcls) with
      | none => []
      | some matching =>
        match vg_stem root matching tense vcls with
        | none => []
        | some stem => (vg_loop suffix_map stem correct_form order []).take 2

/-- The available candidate keys of `servers/verb_game.py` lines 165-166:
every person/number key except the correct one. -/
def vg_available (person number : String) : List String :=
  vg_person_numbers.filter (fun pn => pn ≠ person ++ "_" ++ number)

/-- The stem selection of `servers/mtcGame.py` lines 110-115: starts from
the bare root, overridden by the matching record's past or future stem for
those tenses.  When no record matches, `matching` is `None` and
`matching.get(...)` raises `AttributeError` (modelled by `none`) — but only
for past and future tense; the present tense keeps the bare root. -/
def mtc_select_stem (root : String) (matching : Option Verb) (tense : String) :
    Option String :=
  if tense = "past" then matching.map (fun m => m.past_stem.getD root)
  else if tense = "future" then matching.map (fun m => m.future_stem.getD root)
  else some root

/-- `if s.endswith(halant): s = s[:-1]` as a value. -/
def strip_once (s : String) : String := if ends_in '्' s then drop_last s else s

/-- The candidate loop of `servers/mtcGame.py` lines 117-126: for every
suffix entry (in dict order), strip a trailing halant off the running stem
variable (a persistent, per-iteration mutation), build `stem + suffix` with
the `A` placeholder removed, and append the form whenever it differs from
the correct one — with no deduplication and no script check. -/
def mtc_loop (correct_form : String) :
    List (String × String) → String → List String → String × List String
  | [], stem, acc => (stem, acc)
  | (_, suffix) :: rest, stem, acc =>
    let stem := strip_once stem
    let form := stem ++ remove_every 'A' suffix
    let acc := if form ≠ correct_form then acc ++ [form] else acc
    mtc_loop correct_form rest stem acc

/-- `generate_distractors` of `servers/mtcGame.py` lines 106-127 (the
simpler variant).  The `choose` argument stands for
`random.sample(distractors, min(3, len(distractors)))` of line 127; the
result is `none` when the Python function raises (missing verb record in
past or future tense). -/
def generate_distractors_mtc (conj : Conj) (verbs : List Verb)
    (correct_form root vcls tense : String) (choose : List String → List String) :
    Option (List String) :=
  match List.lookup tense conj with
  | none => some []
  | some by_cls =>
    match List.lookup vcls by_cls with
    | none => some []
    | some suffix_map =>
      let matching := verbs.find? (fun v => v.root == root && v.verb_cls == vcls)
      match mtc_select_stem root matching tense with
      | none => none
      | some stem => some (choose (mtc_loop correct_form suffix_map stem []).2)

/-- A read of `inflect_noun` against a heap of noun records (one record per
address), modelling Python's object store.  `inflect_noun` only reads the
record (`dataset/gen.py` lines 61-83 perform no assignment), so the heap
comes back unchanged; the outer `Option` is an invalid address. -/
def inflect_noun_st (env : Env) (store : List Noun) (a : Nat) (role : String) :
    Option (Option String) × List Noun :=
  ((store[a]?).map (fun n => inflect_noun env n role), store)

/-- `get_valid_nouns` against the heap: `dataset/gen.py` line 112 builds
`n.copy()` for every matching noun, i.e. allocates a fresh record per match.
Result: the extended heap and the addresses of the fresh copies. -/
def get_valid_nouns_heap (store : List Noun) (ecls role : String) :
    List Noun × List Nat :=
  let copies := store.filter (fun n => qualifies n ecls role)
  (store ++ copies, (List.range copies.length).map (fun i => store.length + i))

/-- The assignment `subject["number"] = number` (`dataset/gen.py` line 125)
against the heap: mutate the record at one address. -/
def write_number (store : List Noun) (a : Nat) (num : String) : List Noun :=
  match store[a]? with
  | some n => store.set a { n with number := some num }
  | none => store

/-- A small concrete environment used by the witnesses: one masculine a-stem
declension table, the two irregular pronoun paradigms (`declensions.py` is
not part of the source tree; the paradigm contents follow the spec's
description of case-by-number pronoun tables), and a present-tense 1P
conjugation row. -/
def sampleEnv : Env :=
  { a_stem_masc_declension :=
      [("प्रथमा", ["ः", "ौ", "ाः"]), ("द्वितीया", ["म्", "ौ", "ान्"])],
    aa_stem_fem_declension := [("प्रथमा", ["ा", "े", "ाः"])],
    a_stem_neut_declension := [("प्रथमा", ["म्", "े", "ानि"])],
    asmad_declension :=
      [("प्रथमा", ["अहम्", "आवाम्", "वयम्"]), ("द्वितीया", ["माम्", "आवाम्", "अस्मान्"])],
    yushmad_declension :=
      [("प्रथमा", ["त्वम्", "युवाम्", "यूयम्"]), ("द्वितीया", ["त्वाम्", "युवाम्", "युष्मान्"])],
    conjugations :=
      [("present", [("1P", [("3_sg", "ति"), ("3_du", "तः"), ("3_pl", "अन्ति")])])] }

/-- A plain noun with no gender/stem information: every declension lookup
misses, so inflection falls back to the bare root. -/
def plainNoun : Noun :=
  { root := "जल", gender := none, stem_type := none, entity_classes := ["animate"],
    usable_as_subject := true, usable_as_object := true, number := none }

/-- A noun record whose root is the irregular first-person pronoun and whose
(gender, stem-class) pair has no declension table. -/
def pronounNoun : Noun :=
  { root := "अस्मद्", gender := none, stem_type := none, entity_classes := [],
    usable_as_subject := true, usable_as_object := false, number := none }

/-- A 1P verb with simple metadata, used by witnesses. -/
def sampleVerb : Verb :=
  { root := "गम्", verb_cls := "1P", future_stem := none, past_stem := none,
    requires_object := false, allowed_subject_cls := ["animate"],
    allowed_object_cls := [], meaning := some "to go" }

/-- Claim C10: for every noun record that carries no assigned grammatical
number, `inflect_noun` behaves exactly as if the number were singular: the
result equals `inflect_noun` applied to the same noun with number `"sg"`. -/
theorem c10_default_number_is_sg (env : Env) (noun : Noun) (role : String)
    (h : noun.number = none) :
    inflect_noun env noun role = inflect_noun env { noun with number := some "sg" } role := by
  simp [inflect_noun, h]

/-- Witness for C10 at a concrete noun without a number. -/
theorem c10_default_number_is_sg_witness :
    inflect_noun sampleEnv plainNoun "subject" =
      inflect_noun sampleEnv { plainNoun with number := some "sg" } "subject" :=
  c10_default_number_is_sg sampleEnv plainNoun "subject" rfl

/-- Counterexample to claim C4 as stated: the noun record with root
`अस्मद्` has no declension table for its (gender, stem-class) pair, yet
`inflect_noun` does not return the bare root — the pronoun branch of
`dataset/gen.py` lines 67-70 answers from the irregular paradigm first. -/
theorem c4_counterexample :
    declension_map sampleEnv pronounNoun.gender pronounNoun.stem_type = none ∧
    inflect_noun sampleEnv pronounNoun "subject" = some "अहम्" ∧
    inflect_noun sampleEnv pronounNoun "subject" ≠ some pronounNoun.root := by
  refine ⟨rfl, rfl, ?_⟩
  decide

/-- Claim C4, amended: for every noun OTHER THAN the two irregular pronoun
roots, a missing declension table or a table without the required case
makes `inflect_noun` return the bare root unchanged; and for every verb
whose (tense, class, person_number) key is absent from the conjugation
table, `get_verb_form` returns the bare root unchanged.  (Pronoun roots
are answered from their irregular paradigms instead of falling back.) -/
theorem c4_lookup_miss_bare_root_fallback :
    (∀ (env : Env) (noun : Noun) (role vib : String) (idx : Nat),
      noun.root ≠ "अस्मद्" → noun.root ≠ "युष्मद्" →
      number_index (noun.number.getD "sg") = some idx →
      role_to_vibhakti role = some vib →
      (∀ dt, declension_map env noun.gender noun.stem_type = some dt →
        dt ≠ [] → List.lookup vib dt = none) →
      inflect_noun env noun role = some noun.root) ∧
    (∀ (conj : Conj) (verb : Verb) (person number tense : String),
      lookup3 conj tense verb.verb_cls (person ++ "_" ++ number) = none →
      get_verb_form conj verb person number tense = verb.root) := by
  constructor
  · intro env noun role vib idx h1 h2 hidx hvib hmiss
    simp only [inflect_noun, hidx, hvib, Option.bind_some, Option.some_bind, h1, h2,
      if_false, if_neg]
    rcases hdm : declension_map env noun.gender noun.stem_type with _ | dt
    · simp [h1, h2]
    · by_cases hdt : dt = []
      · simp [h1, h2, hdt]
      · have hlk := hmiss dt hdm hdt
        simp [h1, h2, hdt, hlk]
  · intro conj verb person number tense h
    simp [get_verb_form, h]

/-- Witness for C4 (amended) at a concrete noun with no declension table
and a concrete verb with an empty conjugation table. -/
theorem c4_lookup_miss_bare_root_fallback_witness :
    inflect_noun sampleEnv plainNoun "subject" = some plainNoun.root ∧
    get_verb_form [] sampleVerb "3" "sg" "past" = sampleVerb.root := by
  constructor
  · exact c4_lookup_miss_bare_root_fallback.1 sampleEnv plainNoun "subject" "प्रथमा" 0
      (by decide) (by decide) rfl rfl
      (by intro dt hdt; simp [declension_map, plainNoun] at hdt)
  · exact c4_lookup_miss_bare_root_fallback.2 [] sampleVerb "3" "sg" "past" rfl

/-- A verb whose future stem ends in the halant while its bare root does
not extend that stem: exercises the fallback path of `get_verb_form`. -/
def c1Verb : Verb :=
  { root := "k", verb_cls := "1P", future_stem := some "fu्", past_stem := none,
    requires_object := false, allowed_subject_cls := [], allowed_object_cls := [],
    meaning := none }

/-- Counterexample to claim C1 as stated: with an empty conjugation table
the suffix lookup misses and `get_verb_form` returns the bare root, so for
a future-tense verb whose selected stem ends in the halant the produced
form does not begin with the stem minus its trailing marker. -/
theorem c1_counterexample :
    ends_in '्' (select_stem c1Verb "future") = true ∧
    ¬("future" = "present" ∧ c1Verb.verb_cls = "4P") ∧
    get_verb_form [] c1Verb "3" "sg" "future" = "k" ∧
    ¬ ∃ rest, ("k" : String) = drop_last (select_stem c1Verb "future") ++ rest := by
  refine ⟨by decide, by decide, rfl, ?_⟩
  rintro ⟨rest, h⟩
  have hlen := congrArg String.length h
  have hd : drop_last (select_stem c1Verb "future") = "fu" := by decide
  rw [hd, String.length_append] at hlen
  have h1 : ("k" : String).length = 1 := rfl
  have h2 : ("fu" : String).length = 2 := rfl
  rw [h1, h2] at hlen
  omega

/-- Claim C1, amended: in `get_verb_form`, whenever the conjugation suffix
lookup succeeds and the selected tense-dependent stem ends in the halant,
the produced form begins with the unmodified stem exactly for present-tense
4P verbs, and with the stem minus its trailing marker for every other
(tense, class) combination.  (On a lookup miss the bare root is returned
before any stem handling.) -/
theorem c1_halant_drop_rule (conj : Conj) (verb : Verb)
    (person number tense suffix : String)
    (hlk : lookup3 conj tense verb.verb_cls (person ++ "_" ++ number) = some suffix)
    (hst : ends_in '्' (select_stem verb tense) = true) :
    (tense = "present" ∧ verb.verb_cls = "4P" →
      ∃ rest, get_verb_form conj verb person number tense =
        select_stem verb tense ++ rest) ∧
    (¬(tense = "present" ∧ verb.verb_cls = "4P") →
      ∃ rest, get_verb_form conj verb person number tense =
        drop_last (select_stem verb tense) ++ rest) := by
  constructor
  · intro h4p
    refine ⟨remove_every 'A' suffix, ?_⟩
    have hd : drop_halant tense verb.verb_cls (select_stem verb tense) =
        select_stem verb tense := by
      simp [drop_halant, h4p]
    simp only [get_verb_form, hlk, hd]
  · intro hn4p
    refine ⟨remove_every 'A' suffix, ?_⟩
    have hd : drop_halant tense verb.verb_cls (select_stem verb tense) =
        drop_last (select_stem verb tense) := by
      simp [drop_halant, hn4p, hst]
    simp only [get_verb_form, hlk, hd]

/-- A 4P verb whose root ends in the halant. -/
def divVerb : Verb :=
  { root := "दिव्", verb_cls := "4P", future_stem := none, past_stem := none,
    requires_object := false, allowed_subject_cls := [], allowed_object_cls := [],
    meaning := none }

/-- A present-tense 4P conjugation row. -/
def div4PConj : Conj := [("present", [("4P", [("3_sg", "यति")])])]

/-- A past-tense 1P conjugation row. -/
def gamPastConj : Conj := [("past", [("1P", [("3_sg", "त्")])])]

/-- Witness for C1 (amended): a present-tense 4P verb keeps its halant, and
the same root as a past-tense 1P verb drops it. -/
theorem c1_halant_drop_rule_witness :
    (∃ rest, get_verb_form div4PConj divVerb "3" "sg" "present" =
      select_stem divVerb "present" ++ rest) ∧
    (∃ rest, get_verb_form gamPastConj sampleVerb "3" "sg" "past" =
      drop_last (select_stem sampleVerb "past") ++ rest) := by
  constructor
  · exact (c1_halant_drop_rule div4PConj divVerb "3" "sg" "present" "यति"
      (by decide) (by decide)).1 ⟨rfl, rfl⟩
  · exact (c1_halant_drop_rule gamPastConj sampleVerb "3" "sg" "past" "त्"
      (by decide) (by decide)).2 (by decide)

/-- Claim C9: noun inflection is idempotent and mutation-free — a call to
`inflect_noun` leaves the heap unchanged and a repeated call with the same
(noun, role) input returns the same output; and writing the `number` field
of one copy allocated by `get_valid_nouns` changes neither any other copy
nor any record of the shared noun list. -/
theorem c9_inflection_pure_and_copies_independent :
    (∀ (env : Env) (store : List Noun) (a : Nat) (role : String),
      (inflect_noun_st env store a role).2 = store ∧
      (inflect_noun_st env (inflect_noun_st env store a role).2 a role).1 =
        (inflect_noun_st env store a role).1) ∧
    (∀ (store : List Noun) (ecls role num : String) (i j : Nat),
      i ∈ (get_valid_nouns_heap store ecls role).2 →
      j ∈ (get_valid_nouns_heap store ecls role).2 → i ≠ j →
      (write_number (get_valid_nouns_heap store ecls role).1 i num)[j]? =
        (get_valid_nouns_heap store ecls role).1[j]?) ∧
    (∀ (store : List Noun) (ecls role num : String) (i a : Nat),
      i ∈ (get_valid_nouns_heap store ecls role).2 → a < store.length →
      (write_number (get_valid_nouns_heap store ecls role).1 i num)[a]? =
        store[a]?) := by
  refine ⟨fun env store a role => ⟨rfl, rfl⟩, ?_, ?_⟩
  · intro store ecls role num i j _ _ hij
    unfold write_number
    rcases h : (get_valid_nouns_heap store ecls role).1[i]? with _ | n
    · rfl
    · exact List.getElem?_set_ne hij
  · intro store ecls role num i a hi ha
    have hlen : store.length ≤ i := by
      simp only [get_valid_nouns_heap, List.mem_map, List.mem_range] at hi
      obtain ⟨k, _, hk⟩ := hi
      omega
    have hne : i ≠ a := by omega
    have happ : (get_valid_nouns_heap store ecls role).1[a]? = store[a]? :=
      List.getElem?_append_left ha
    unfold write_number
    rcases h : (get_valid_nouns_heap store ecls role).1[i]? with _ | n
    · exact happ
    · rw [List.getElem?_set_ne hne]
      exact happ

/-- Witness for C9 at a concrete two-noun heap: copy addresses 2 and 3 are
independent, and address 0 of the original list is untouched. -/
theorem c9_inflection_pure_and_copies_independent_witness :
    ((inflect_noun_st sampleEnv [plainNoun, pronounNoun] 0 "subject").2 =
        [plainNoun, pronounNoun] ∧
      (inflect_noun_st sampleEnv
          (inflect_noun_st sampleEnv [plainNoun, pronounNoun] 0 "subject").2 0 "subject").1 =
        (inflect_noun_st sampleEnv [plainNoun, pronounNoun] 0 "subject").1) ∧
    (write_number (get_valid_nouns_heap [plainNoun, pronounNoun] "animate" "subject").1
        2 "du")[0]? = some plainNoun := by
  constructor
  · exact (c9_inflection_pure_and_copies_independent.1 sampleEnv
      [plainNoun, pronounNoun] 0 "subject")
  · have h := c9_inflection_pure_and_copies_independent.2.2
      [plainNoun, pronounNoun] "animate" "subject" "du" 2 0 (by decide) (by decide)
    rw [h]
    rfl

/-- Invariant of the `verb_game` candidate loop: starting from an
accumulator that avoids the correct form, has no duplicates and contains
only script-checked forms, the loop's result does too — the acceptance
condition of `servers/verb_game.py` line 177 tests exactly these three
properties before appending. -/
theorem vg_loop_invariant (sm : List (String × String)) (stem cf : String)
    (order : List String) :
    ∀ (acc : List String), cf ∉ acc → acc.Nodup →
      (∀ f ∈ acc, deva_match f = true) →
      cf ∉ vg_loop sm stem cf order acc ∧ (vg_loop sm stem cf order acc).Nodup ∧
        ∀ f ∈ vg_loop sm stem cf order acc, deva_match f = true := by
  induction order with
  | nil =>
    intro acc h1 h2 h3
    exact ⟨h1, h2, h3⟩
  | cons pn rest ih =>
    intro acc h1 h2 h3
    rw [vg_loop]
    cases hl : List.lookup pn sm with
    | none => exact ih acc h1 h2 h3
    | some suffix =>
      by_cases hs : suffix = ""
      · simp only [hs, if_pos rfl]
        exact ih acc h1 h2 h3
      · simp only [if_neg hs]
        by_cases hc : stem ++ remove_every 'A' suffix ≠ cf ∧
            stem ++ remove_every 'A' suffix ∉ acc ∧
            deva_match (stem ++ remove_every 'A' suffix)
        · simp only [if_pos hc]
          have h1' : cf ∉ acc ++ [stem ++ remove_every 'A' suffix] := by
            intro hmem
            rcases List.mem_append.mp hmem with h | h
            · exact h1 h
            · exact hc.1 (List.mem_singleton.mp h).symm
          have h2' : (acc ++ [stem ++ remove_every 'A' suffix]).Nodup := by
            rw [List.nodup_append]
            refine ⟨h2, List.nodup_singleton _, ?_⟩
            intro a ha hf
            rw [List.mem_singleton.mp hf] at ha
            exact hc.2.1 ha
          have h3' : ∀ f ∈ acc ++ [stem ++ remove_every 'A' suffix],
              deva_match f = true := by
            intro f hf
            rcases List.mem_append.mp hf with h | h
            · exact h3 f h
            · rw [List.mem_singleton.mp h]
              exact hc.2.2
          by_cases hlen : 2 ≤ (acc ++ [stem ++ remove_every 'A' suffix]).length
          · simp only [if_pos hlen]
            exact ⟨h1', h2', h3'⟩
          · simp only [if_neg hlen]
            exact ih _ h1' h2' h3'
        · simp only [if_neg hc]
          by_cases hlen : 2 ≤ acc.length
          · simp only [if_pos hlen]
            exact ⟨h1, h2, h3⟩
          · simp only [if_neg hlen]
            exact ih acc h1 h2 h3

/-- Invariant of the `mtcGame` candidate loop: every accumulated form
differs from the correct form — the only guard of
`servers/mtcGame.py` line 123. -/
theorem mtc_loop_ne_correct (cf : String) :
    ∀ (sm : List (String × String)) (stem : String) (acc : List String),
      (∀ f ∈ acc, f ≠ cf) → ∀ f ∈ (mtc_loop cf sm stem acc).2, f ≠ cf := by
  intro sm
  induction sm with
  | nil =>
    intro stem acc h
    simpa [mtc_loop] using h
  | cons p rest ih =>
    obtain ⟨k, s⟩ := p
    intro stem acc h
    rw [mtc_loop]
    by_cases hc : strip_once stem ++ remove_every 'A' s ≠ cf
    · simp only [if_pos hc]
      refine ih _ _ ?_
      intro f hf
      rcases List.mem_append.mp hf with h' | h'
      · exact h f h'
      · rw [List.mem_singleton.mp h']
        exact hc
    · simp only [if_neg hc]
      exact ih _ _ h

/-- A conjugation table whose two present-tense 1P suffixes collapse to the
same string once the `A` placeholder is removed. -/
def dupConj : Conj := [("present", [("1P", [("3_sg", "ti"), ("3_du", "Ati")])])]

/-- A one-row present-tense 1P conjugation table with a Latin suffix. -/
def asciiConj : Conj := [("present", [("1P", [("3_sg", "ti")])])]

/-- Counterexample to claim C5 as stated: the simpler variant
(`servers/mtcGame.py`) has no duplicate check, so two suffix entries that
collapse after placeholder removal yield the same form twice in one call.
(`fun l => l` is one possible outcome of `random.sample(l, min(3, len(l)))`
on a two-element list.) -/
theorem c5_counterexample :
    generate_distractors_mtc dupConj [] "x" "s" "1P" "present" (fun l => l) =
      some ["sti", "sti"] ∧
    ¬(["sti", "sti"] : List String).Nodup := ⟨rfl, by decide⟩

/-- Claim C5, amended: the key-restricted variant
(`servers/verb_game.py`) never returns the correct form and never returns
duplicates within one call; the simpler variant (`servers/mtcGame.py`)
never returns the correct form, but it performs no duplicate filtering. -/
theorem c5_correct_form_excluded :
    (∀ (conj : Conj) (verbs : List Verb) (cf root vcls tense : String)
       (order : List String),
      cf ∉ generate_distractors_vg conj verbs cf root vcls tense order ∧
        (generate_distractors_vg conj verbs cf root vcls tense order).Nodup) ∧
    (∀ (conj : Conj) (verbs : List Verb) (cf root vcls tense : String)
       (choose : List String → List String) (r : List String),
      (∀ l, ∀ x ∈ choose l, x ∈ l) →
      generate_distractors_mtc conj verbs cf root vcls tense choose = some r →
      cf ∉ r) := by
  constructor
  · intro conj verbs cf root vcls tense order
    cases hlt : List.lookup tense conj with
    | none => simp [generate_distractors_vg, hlt]
    | some by_cls =>
      cases hlc : List.lookup vcls by_cls with
      | none => simp [generate_distractors_vg, hlt, hlc]
      | some sm =>
        cases hfd : verbs.find? (fun v => v.root == root && v.verb_cls == vcls) with
        | none => simp [generate_distractors_vg, hlt, hlc, hfd]
        | some matching =>
          cases hst : vg_stem root matching tense vcls with
          | none => simp [generate_distractors_vg, hlt, hlc, hfd, hst]
          | some stem =>
            simp only [generate_distractors_vg, hlt, hlc, hfd, hst]
            have hinv := vg_loop_invariant sm stem cf order []
              (by simp) (by simp) (by simp)
            constructor
            · intro hmem
              exact hinv.1 (List.mem_of_mem_take hmem)
            · exact (List.take_sublist _ _).nodup hinv.2.1
  · intro conj verbs cf root vcls tense choose r hch hres
    cases hlt : List.lookup tense conj with
    | none =>
      simp only [generate_distractors_mtc, hlt, Option.some.injEq] at hres
      subst hres
      simp
    | some by_cls =>
      cases hlc : List.lookup vcls by_cls with
      | none =>
        simp only [generate_distractors_mtc, hlt, hlc, Option.some.injEq] at hres
        subst hres
        simp
      | some sm =>
        cases hsel : mtc_select_stem root
            (verbs.find? (fun v => v.root == root && v.verb_cls == vcls)) tense with
        | none =>
          simp only [generate_distractors_mtc, hlt, hlc, hsel] at hres
          cases hres
        | some stem =>
          simp only [generate_distractors_mtc, hlt, hlc, hsel, Option.some.injEq] at hres
          subst hres
          intro hmem
          have hloop := mtc_loop_ne_correct cf sm stem [] (by simp)
          exact hloop cf (hch _ cf hmem) rfl

/-- Witness for C5 at concrete inputs: the key-restricted variant on a real
table, and the simpler variant with the identity sample. -/
theorem c5_correct_form_excluded_witness :
    ("sti" ∉ generate_distractors_vg asciiConj [] "sti" "s" "1P" "present" ["3_sg"] ∧
      (generate_distractors_vg asciiConj [] "sti" "s" "1P" "present" ["3_sg"]).Nodup) ∧
    "x" ∉ (["sti", "sti"] : List String) := by
  constructor
  · exact c5_correct_form_excluded.1 asciiConj [] "sti" "s" "1P" "present" ["3_sg"]
  · exact c5_correct_form_excluded.2 dupConj [] "x" "s" "1P" "present" (fun l => l)
      ["sti", "sti"] (fun l x h => h) rfl

/-- Counterexample to claim C6 as stated: the simpler variant
(`servers/mtcGame.py`) applies no script filter, so with a Latin root the
returned form contains characters outside the Devanagari block. -/
theorem c6_counterexample :
    generate_distractors_mtc asciiConj [] "x" "ab" "1P" "present" (fun l => l) =
      some ["abti"] ∧
    ("abti" : String).data.all in_deva_block = false := ⟨rfl, by decide⟩

/-- Claim C6, amended: the key-restricted variant returns at most 2 forms,
each passing its Devanagari script check (all characters in U+0900-U+097F,
modulo Python's `$` also matching before one trailing newline); the simpler
variant returns at most 3 forms but applies no script filter. -/
theorem c6_cap_and_script :
    (∀ (conj : Conj) (verbs : List Verb) (cf root vcls tense : String)
       (order : List String),
      (generate_distractors_vg conj verbs cf root vcls tense order).length ≤ 2 ∧
        ∀ f ∈ generate_distractors_vg conj verbs cf root vcls tense order,
          deva_match f = true) ∧
    (∀ (conj : Conj) (verbs : List Verb) (cf root vcls tense : String)
       (choose : List String → List String) (r : List String),
      (∀ l, (choose l).length = min 3 l.length) →
      generate_distractors_mtc conj verbs cf root vcls tense choose = some r →
      r.length ≤ 3) := by
  constructor
  · intro conj verbs cf root vcls tense order
    cases hlt : List.lookup tense conj with
    | none => simp [generate_distractors_vg, hlt]
    | some by_cls =>
      cases hlc : List.lookup vcls by_cls with
      | none => simp [generate_distractors_vg, hlt, hlc]
      | some sm =>
        cases hfd : verbs.find? (fun v => v.root == root && v.verb_cls == vcls) with
        | none => simp [generate_distractors_vg, hlt, hlc, hfd]
        | some matching =>
          cases hst : vg_stem root matching tense vcls with
          | none => simp [generate_distractors_vg, hlt, hlc, hfd, hst]
          | some stem =>
            simp only [generate_distractors_vg, hlt, hlc, hfd, hst]
            have hinv := vg_loop_invariant sm stem cf order []
              (by simp) (by simp) (by simp)
            constructor
            · rw [List.length_take]
              exact min_le_left _ _
            · intro f hf
              exact hinv.2.2 f (List.mem_of_mem_take hf)
  · intro conj verbs cf root vcls tense choose r hlen hres
    cases hlt : List.lookup tense conj with
    | none =>
      simp only [generate_distractors_mtc, hlt, Option.some.injEq] at hres
      subst hres
      simp
    | some by_cls =>
      cases hlc : List.lookup vcls by_cls with
      | none =>
        simp only [generate_distractors_mtc, hlt, hlc, Option.some.injEq] at hres
        subst hres
        simp
      | some sm =>
        cases hsel : mtc_select_stem root
            (verbs.find? (fun v => v.root == root && v.verb_cls == vcls)) tense with
        | none =>
          simp only [generate_distractors_mtc, hlt, hlc, hsel] at hres
          cases hres
        | some stem =>
          simp only [generate_distractors_mtc, hlt, hlc, hsel, Option.some.injEq] at hres
          subst hres
          rw [hlen]
          exact min_le_left _ _

/-- Witness for C6 at concrete inputs: the key-restricted variant on a
Devanagari table, and the simpler variant with a cap-respecting sample. -/
theorem c6_cap_and_script_witness :
    ((generate_distractors_vg sampleEnv.conjugations [sampleVerb] "गमति" "गम्" "1P"
        "present" ["3_du", "3_pl"]).length ≤ 2 ∧
      ∀ f ∈ generate_distractors_vg sampleEnv.conjugations [sampleVerb] "गमति" "गम्" "1P"
        "present" ["3_du", "3_pl"], deva_match f = true) ∧
    (["sti"] : List String).length ≤ 3 := by
  constructor
  · exact c6_cap_and_script.1 sampleEnv.conjugations [sampleVerb] "गमति" "गम्" "1P"
      "present" ["3_du", "3_pl"]
  · exact c6_cap_and_script.2 asciiConj [] "x" "s" "1P" "present" (fun l => l.take 3)
      ["sti"] (fun l => by simp [Nat.min_comm]) rfl

/-- Counterexample to claim C7 as stated: when no verb entry matches the
root and class, the simpler variant (`servers/mtcGame.py`) does not return
an empty list — in the past tense `matching.get(...)` is called on `None`
and raises (modelled by `none`), and in the present tense it proceeds with
the bare root and returns a non-empty list. -/
theorem c7_counterexample :
    generate_distractors_mtc gamPastConj [] "x" "गम्" "1P" "past" (fun l => l) = none ∧
    generate_distractors_mtc asciiConj [] "x" "ab" "1P" "present" (fun l => l) ≠
      some [] := ⟨rfl, by decide⟩

/-- Claim C7, amended: both variants return an empty list when no
conjugation entries exist for (tense, verb-class); when no verb entry
matches the root and class, only the key-restricted variant
(`servers/verb_game.py`) returns an empty list — the simpler variant
raises an error for past and future tenses (and proceeds with the bare
root for the present tense). -/
theorem c7_missing_data_degrades :
    (∀ (conj : Conj) (verbs : List Verb) (cf root vcls tense : String)
       (order : List String),
      List.lookup tense conj = none →
      generate_distractors_vg conj verbs cf root vcls tense order = []) ∧
    (∀ (conj : Conj) (verbs : List Verb) (cf root vcls tense : String)
       (order : List String) (by_cls : List (String × List (String × String))),
      List.lookup tense conj = some by_cls → List.lookup vcls by_cls = none →
      generate_distractors_vg conj verbs cf root vcls tense order = []) ∧
    (∀ (conj : Conj) (verbs : List Verb) (cf root vcls tense : String)
       (order : List String),
      verbs.find? (fun v => v.root == root && v.verb_cls == vcls) = none →
      generate_distractors_vg conj verbs cf root vcls tense order = []) ∧
    (∀ (conj : Conj) (verbs : List Verb) (cf root vcls tense : String)
       (choose : List String → List String),
      List.lookup tense conj = none →
      generate_distractors_mtc conj verbs cf root vcls tense choose = some []) ∧
    (∀ (conj : Conj) (verbs : List Verb) (cf root vcls tense : String)
       (choose : List String → List String)
       (by_cls : List (String × List (String × String))),
      List.lookup tense conj = some by_cls → List.lookup vcls by_cls = none →
      generate_distractors_mtc conj verbs cf root vcls tense choose = some []) ∧
    (∀ (conj : Conj) (verbs : List Verb) (cf root vcls tense : String)
       (choose : List String → List String)
       (by_cls : List (String × List (String × String)))
       (sm : List (String × String)),
      tense = "past" ∨ tense = "future" →
      List.lookup tense conj = some by_cls → List.lookup vcls by_cls = some sm →
      verbs.find? (fun v => v.root == root && v.verb_cls == vcls) = none →
      generate_distractors_mtc conj verbs cf root vcls tense choose = none) := by
  refine ⟨?_, ?_, ?_, ?_, ?_, ?_⟩
  · intro conj verbs cf root vcls tense order h
    simp [generate_distractors_vg, h]
  · intro conj verbs cf root vcls tense order by_cls h1 h2
    simp [generate_distractors_vg, h1, h2]
  · intro conj verbs cf root vcls tense order h
    cases hlt : List.lookup tense conj with
    | none => simp [generate_distractors_vg, hlt]
    | some by_cls =>
      cases hlc : List.lookup vcls by_cls with
      | none => simp [generate_distractors_vg, hlt, hlc]
      | some sm => simp [generate_distractors_vg, hlt, hlc, h]
  · intro conj verbs cf root vcls tense choose h
    simp [generate_distractors_mtc, h]
  · intro conj verbs cf root vcls tense choose by_cls h1 h2
    simp [generate_distractors_mtc, h1, h2]
  · intro conj verbs cf root vcls tense choose by_cls sm htense h1 h2 hfd
    have hsel : mtc_select_stem root
        (verbs.find? (fun v => v.root == root && v.verb_cls == vcls)) tense = none := by
      rcases htense with h | h <;> subst h <;> simp [mtc_select_stem, hfd]
    simp [generate_distractors_mtc, h1, h2, hsel]

/-- Witness for C7 at concrete inputs: a tense absent from the table, and a
missing verb record in the past tense. -/
theorem c7_missing_data_degrades_witness :
    generate_distractors_vg asciiConj [] "x" "s" "1P" "future" ["3_sg"] = [] ∧
    generate_distractors_mtc gamPastConj [sampleVerb] "x" "पठ्" "1P" "past"
      (fun l => l) = none := by
  constructor
  · exact c7_missing_data_degrades.1 asciiConj [] "x" "s" "1P" "future" ["3_sg"] rfl
  · exact c7_missing_data_degrades.2.2.2.2.2 gamPastConj [sampleVerb] "x" "पठ्" "1P"
      "past" (fun l => l) [("1P", [("3_sg", "त्")])] [("3_sg", "त्")]
      (Or.inl rfl) rfl rfl rfl

/-- Whenever the stem resolution of the key-restricted variant
(`servers/verb_game.py` lines 146-156) succeeds, the resolved stem is
exactly `get_verb_form`'s stem-selection plus halant-drop for the matching
verb record. -/
theorem vg_stem_some_eq_gen (root tense vcls stem : String) (m : Verb)
    (hroot : m.root = root) (hcls : m.verb_cls = vcls)
    (hst : vg_stem root m tense vcls = some stem) :
    stem = drop_halant tense vcls (select_stem m tense) := by
  subst hroot
  subst hcls
  by_cases hp : tense = "past"
  · subst hp
    simp [vg_stem, Option.map_eq_some'] at hst
    obtain ⟨ps, hps, hstem⟩ := hst
    subst hstem
    simp [select_stem, drop_halant, hps]
  · by_cases hf : tense = "future"
    · subst hf
      simp [vg_stem, Option.map_eq_some'] at hst
      obtain ⟨fs, hfs, hstem⟩ := hst
      subst hstem
      simp [select_stem, drop_halant, hfs]
    · by_cases h4 : tense = "present" ∧ m.verb_cls = "4P"
      · obtain ⟨ht, hc⟩ := h4
        subst ht
        simp [vg_stem, hc] at hst
        subst hst
        simp [select_stem, drop_halant, hc]
      · simp [vg_stem, hp, hf, h4] at hst
        subst hst
        simp [select_stem, drop_halant, hp, hf, h4]

/-- The stem resolution of the key-restricted variant fails (raises on the
materialized `None` override) exactly for a past or future request on a
record without the corresponding stem override. -/
theorem vg_stem_none_iff (root tense vcls : String) (m : Verb) :
    vg_stem root m tense vcls = none ↔
      (tense = "past" ∧ m.past_stem = none) ∨
        (tense = "future" ∧ m.future_stem = none) := by
  by_cases hp : tense = "past"
  · subst hp
    simp [vg_stem, Option.map_eq_none']
  · by_cases hf : tense = "future"
    · subst hf
      simp [vg_stem, Option.map_eq_none']
    · by_cases h4 : tense = "present" ∧ vcls = "4P"
      · simp [vg_stem, hp, hf, h4]
      · simp [vg_stem, hp, hf, h4]

/-- The stem selection of the simpler variant (`servers/mtcGame.py` lines
110-115) agrees with `get_verb_form`'s `select_stem` when a verb record
matches. -/
theorem mtc_select_eq_gen (root tense : String) (m : Verb) (hroot : m.root = root) :
    mtc_select_stem root (some m) tense = some (select_stem m tense) := by
  subst hroot
  by_cases hp : tense = "past" <;> by_cases hf : tense = "future" <;>
    simp [mtc_select_stem, select_stem, hp, hf]

/-- Outside the present-4P combination, `get_verb_form`'s conditional strip
is the unconditional single strip. -/
theorem drop_halant_eq_strip_once (tense vcls s : String)
    (h : ¬(tense = "present" ∧ vcls = "4P")) :
    drop_halant tense vcls s = strip_once s := by
  simp [drop_halant, strip_once, h]

/-- For present-tense 4P verbs `get_verb_form` keeps the stem unmodified. -/
theorem drop_halant_present_4P (s : String) : drop_halant "present" "4P" s = s := by
  simp [drop_halant]

/-- Once the running stem of the `mtcGame` loop no longer ends in the
halant, every iteration uses it unchanged. -/
theorem mtc_loop_stable (cf : String) :
    ∀ (sm : List (String × String)) (stem : String) (acc : List String),
      ends_in '्' stem = false →
      (mtc_loop cf sm stem acc).2 =
        acc ++ (sm.map (fun p => stem ++ remove_every 'A' p.2)).filter
          (fun f => f ≠ cf) := by
  intro sm
  induction sm with
  | nil =>
    intro stem acc h
    simp [mtc_loop]
  | cons p rest ih =>
    obtain ⟨k, s⟩ := p
    intro stem acc h
    have hstrip : strip_once stem = stem := by simp [strip_once, h]
    rw [mtc_loop, hstrip]
    rw [ih stem _ h]
    by_cases hc : stem ++ remove_every 'A' s ≠ cf
    · simp [List.filter_cons, hc]
    · simp [List.filter_cons, hc]

/-- Every form produced by the `mtcGame` candidate loop is the
once-stripped stem followed by a placeholder-cleaned suffix, provided the
once-stripped stem itself no longer ends in the halant (true of any stem
with at most one trailing halant). -/
theorem mtc_loop_forms (cf : String) (sm : List (String × String)) (stem : String)
    (h : ends_in '्' (strip_once stem) = false) :
    (mtc_loop cf sm stem []).2 =
      (sm.map (fun p => strip_once stem ++ remove_every 'A' p.2)).filter
        (fun f => f ≠ cf) := by
  cases sm with
  | nil => rfl
  | cons p rest =>
    obtain ⟨k, s⟩ := p
    rw [mtc_loop]
    rw [mtc_loop_stable cf rest (strip_once stem) _ h]
    by_cases hc : strip_once stem ++ remove_every 'A' s ≠ cf
    · simp [List.filter_cons, hc]
    · simp [List.filter_cons, hc]

/-- Counterexample to claim C2 as stated: for a present-tense 4P verb whose
root ends in the halant, `get_verb_form` keeps the marker (stem `दिव्`),
but the simpler distractor variant strips it unconditionally and builds its
forms on `दिव`. -/
theorem c2_counterexample :
    generate_distractors_mtc div4PConj [divVerb] "x" "दिव्" "4P" "present"
      (fun l => l) = some ["दिवयति"] ∧
    drop_halant "present" "4P" (select_stem divVerb "present") = "दिव्" ∧
    ¬ ∃ rest, ("दिवयति" : String) = "दिव्" ++ rest := by
  refine ⟨rfl, rfl, ?_⟩
  rintro ⟨rest, h⟩
  have h3 := congrArg (fun s => s.data[3]?) h
  simp only [String.data_append] at h3
  rw [List.getElem?_append_left (by decide)] at h3
  exact absurd h3 (by decide)

/-- Claim C2, amended: whenever the key-restricted variant resolves a stem
at all, that stem is exactly `get_verb_form`'s (tense-dependent selection
plus the conditional halant strip); but because its loader materializes
absent stem overrides as null, the resolution fails exactly for a past or
future request on a record without the corresponding override — there the
generator recovers to an empty list, where `get_verb_form` would fall back
to the bare root.  The simpler variant performs the same tense-dependent
selection but strips the trailing halant unconditionally, so every form it
emits extends the once-stripped stem — which coincides with
`get_verb_form`'s stem except for present-tense 4P verbs, where
`get_verb_form` keeps the stem unmodified. -/
theorem c2_stem_refinement :
    (∀ (root tense vcls stem : String) (m : Verb),
      m.root = root → m.verb_cls = vcls →
      vg_stem root m tense vcls = some stem →
      stem = drop_halant tense vcls (select_stem m tense)) ∧
    (∀ (root tense vcls : String) (m : Verb),
      vg_stem root m tense vcls = none ↔
        (tense = "past" ∧ m.past_stem = none) ∨
          (tense = "future" ∧ m.future_stem = none)) ∧
    (∀ (conj : Conj) (verbs : List Verb) (cf root vcls tense : String)
       (order : List String) (m : Verb),
      verbs.find? (fun v => v.root == root && v.verb_cls == vcls) = some m →
      vg_stem root m tense vcls = none →
      generate_distractors_vg conj verbs cf root vcls tense order = []) ∧
    (∀ (root tense : String) (m : Verb), m.root = root →
      mtc_select_stem root (some m) tense = some (select_stem m tense)) ∧
    (∀ (conj : Conj) (verbs : List Verb) (cf root vcls tense : String)
       (choose : List String → List String) (stem : String) (r : List String),
      (∀ l, ∀ x ∈ choose l, x ∈ l) →
      mtc_select_stem root
        (verbs.find? (fun v => v.root == root && v.verb_cls == vcls)) tense =
        some stem →
      ends_in '्' (strip_once stem) = false →
      generate_distractors_mtc conj verbs cf root vcls tense choose = some r →
      ∀ f ∈ r, ∃ rest, f = strip_once stem ++ rest) ∧
    (∀ (tense vcls s : String),
      (¬(tense = "present" ∧ vcls = "4P") → drop_halant tense vcls s = strip_once s) ∧
      (tense = "present" → vcls = "4P" → drop_halant tense vcls s = s)) := by
  refine ⟨vg_stem_some_eq_gen, vg_stem_none_iff, ?_, mtc_select_eq_gen, ?_, ?_⟩
  · intro conj verbs cf root vcls tense order m hfd hnone
    cases hlt : List.lookup tense conj with
    | none => simp [generate_distractors_vg, hlt]
    | some by_cls =>
      cases hlc : List.lookup vcls by_cls with
      | none => simp [generate_distractors_vg, hlt, hlc]
      | some sm => simp [generate_distractors_vg, hlt, hlc, hfd, hnone]
  · intro conj verbs cf root vcls tense choose stem r hch hsel hone hres f hf
    cases hlt : List.lookup tense conj with
    | none =>
      simp only [generate_distractors_mtc, hlt, Option.some.injEq] at hres
      subst hres
      cases hf
    | some by_cls =>
      cases hlc : List.lookup vcls by_cls with
      | none =>
        simp only [generate_distractors_mtc, hlt, hlc, Option.some.injEq] at hres
        subst hres
        cases hf
      | some sm =>
        simp only [generate_distractors_mtc, hlt, hlc, hsel, Option.some.injEq] at hres
        subst hres
        have hmem := hch _ f hf
        rw [mtc_loop_forms cf sm stem hone] at hmem
        obtain ⟨p, _, hp⟩ := List.mem_map.mp (List.mem_filter.mp hmem).1
        exact ⟨remove_every 'A' p.2, hp.symm⟩
  · intro tense vcls s
    exact ⟨fun h => drop_halant_eq_strip_once tense vcls s h,
      fun ht hc => by subst ht; subst hc; exact drop_halant_present_4P s⟩

/-- Witness for C2 (amended) at concrete inputs: a resolved present-tense
stem agreeing with `get_verb_form`, the failing resolution and empty-list
recovery for a past-tense verb without an override, and the simpler
variant's forms on a 4P present verb, which all extend the stripped stem
`दिव`. -/
theorem c2_stem_refinement_witness :
    ("गम" : String) = drop_halant "present" "1P" (select_stem sampleVerb "present") ∧
    vg_stem "गम्" sampleVerb "past" "1P" = none ∧
    generate_distractors_vg gamPastConj [sampleVerb] "x" "गम्" "1P" "past"
      ["3_sg"] = [] ∧
    mtc_select_stem "गम्" (some sampleVerb) "past" =
      some (select_stem sampleVerb "past") ∧
    (∀ f ∈ (["दिवयति"] : List String), ∃ rest, f = strip_once "दिव्" ++ rest) ∧
    drop_halant "present" "4P" "दिव्" = "दिव्" := by
  have hnone : vg_stem "गम्" sampleVerb "past" "1P" = none :=
    (c2_stem_refinement.2.1 "गम्" "past" "1P" sampleVerb).mpr (Or.inl ⟨rfl, rfl⟩)
  refine ⟨c2_stem_refinement.1 "गम्" "present" "1P" "गम" sampleVerb rfl rfl rfl,
    hnone,
    c2_stem_refinement.2.2.1 gamPastConj [sampleVerb] "x" "गम्" "1P" "past"
      ["3_sg"] sampleVerb rfl hnone,
    c2_stem_refinement.2.2.2.1 "गम्" "past" sampleVerb rfl, ?_, ?_⟩
  · exact c2_stem_refinement.2.2.2.2.1 div4PConj [divVerb] "x" "दिव्" "4P" "present"
      (fun l => l) "दिव्" ["दिवयति"] (fun l x h => h) rfl (by decide) rfl
  · exact (c2_stem_refinement.2.2.2.2.2 "present" "4P" "दिव्").2 rfl rfl

/-- Both form dictionaries of an entry still have exactly the three
initial keys, in order. -/
def forms_keys_ok (e : MtcEntry) : Prop :=
  e.subject_forms.map Prod.fst = ["sg", "du", "pl"] ∧
  e.verb_forms.map Prod.fst = ["sg", "du", "pl"]

/-- Writing to an existing key leaves a dictionary's key list unchanged. -/
theorem dict_set_keys_of_mem {α : Type} :
    ∀ (l : List (String × α)) (k : String) (v : α),
      k ∈ l.map Prod.fst → (dict_set l k v).map Prod.fst = l.map Prod.fst := by
  intro l
  induction l with
  | nil => intro k v h; simp at h
  | cons p rest ih =>
    obtain ⟨k', v'⟩ := p
    intro k v h
    rw [dict_set]
    by_cases hk : k' = k
    · simp [hk]
    · simp only [if_neg hk, List.map_cons]
      rw [ih k v ?_]
      simp only [List.map_cons, List.mem_cons] at h
      rcases h with h | h
      · exact absurd h.symm hk
      · exact h

/-- `dict_modify` preserves any property that the modification preserves. -/
theorem dict_modify_forall {α : Type} (P : α → Prop) :
    ∀ (l : List (String × α)) (k : String) (f : α → α),
      (∀ p ∈ l, P p.2) → (∀ v, P v → P (f v)) →
      ∀ p ∈ dict_modify l k f, P p.2 := by
  intro l
  induction l with
  | nil => intro k f _ _ p hp; simp [dict_modify] at hp
  | cons q rest ih =>
    obtain ⟨k', v'⟩ := q
    intro k f hl hf p hp
    rw [dict_modify] at hp
    by_cases hk : k' = k
    · simp only [if_pos hk, List.mem_cons] at hp
      rcases hp with hp | hp
      · rw [hp]
        exact hf v' (hl (k', v') (List.mem_cons_self _ _))
      · exact hl p (List.mem_cons_of_mem _ hp)
    · simp only [if_neg hk, List.mem_cons] at hp
      rcases hp with hp | hp
      · rw [hp]
        exact hl (k', v') (List.mem_cons_self _ _)
      · exact ih k f (fun q hq => hl q (List.mem_cons_of_mem _ hq)) hf p hp

/-- Every entry built by the grouping fold keeps the three-slot key shape,
provided all input numbers are grammatical. -/
theorem build_game_data_keys :
    ∀ (pairs : List MtcPair) (gd : List (String × MtcEntry)),
      (∀ p ∈ pairs, p.subject.number = "sg" ∨ p.subject.number = "du" ∨
        p.subject.number = "pl") →
      (∀ q ∈ gd, forms_keys_ok q.2) →
      ∀ q ∈ pairs.foldl game_step gd, forms_keys_ok q.2 := by
  intro pairs
  induction pairs with
  | nil => intro gd _ hgd q hq; exact hgd q hq
  | cons pair rest ih =>
    intro gd hn hgd q hq
    rw [List.foldl_cons] at hq
    refine ih (game_step gd pair) (fun p hp => hn p (List.mem_cons_of_mem _ hp)) ?_ q hq
    intro r hr
    have hnum := hn pair (List.mem_cons_self _ _)
    unfold game_step at hr
    set key := pair.subject.root ++ "_" ++ pair.verb.root ++ "_" ++ pair.verb.tense with hkey
    have hgd' : ∀ s ∈ (if (List.lookup key gd).isNone then
        gd ++ [(key, { subject_root := pair.subject.root, verb_root := pair.verb.root,
                       tense := pair.verb.tense, subject_forms := initial_forms,
                       verb_forms := initial_forms, meaning := pair.verb.meaning })]
      else gd), forms_keys_ok s.2 := by
      split
      · intro s hs
        rcases List.mem_append.mp hs with h | h
        · exact hgd s h
        · rw [List.mem_singleton.mp h]
          exact ⟨rfl, rfl⟩
      · exact hgd
    refine dict_modify_forall forms_keys_ok _ key _ hgd' ?_ r hr
    intro v hv
    have hmem : pair.subject.number ∈ (["sg", "du", "pl"] : List String) := by
      rcases hnum with h | h | h <;> simp [h]
    constructor
    · rw [dict_set_keys_of_mem _ _ _ (by rw [hv.1]; exact hmem)]
      exact hv.1
    · rw [dict_set_keys_of_mem _ _ _ (by rw [hv.2]; exact hmem)]
      exact hv.2

/-- Over a dictionary with exactly the keys sg, du, pl, the `all(...)`
truthiness test is the conjunction of the three named lookups. -/
theorem all_truthy_eq_three (l : List (String × Option String))
    (h : l.map Prod.fst = ["sg", "du", "pl"]) :
    l.all (fun p => truthy_form p.2) =
      (truthy_form ((List.lookup "sg" l).join) &&
        truthy_form ((List.lookup "du" l).join) &&
        truthy_form ((List.lookup "pl" l).join)) := by
  rcases l with _ | ⟨⟨k1, a⟩, l⟩
  · simp at h
  rcases l with _ | ⟨⟨k2, b⟩, l⟩
  · simp at h
  rcases l with _ | ⟨⟨k3, c⟩, l⟩
  · simp at h
  rcases l with _ | ⟨p, l⟩
  case cons.mk.cons.mk.cons.mk.cons => simp at h
  obtain ⟨h1, h2, h3⟩ : k1 = "sg" ∧ k2 = "du" ∧ k3 = "pl" := by simpa using h
  subst h1
  subst h2
  subst h3
  simp [List.lookup, Bool.and_assoc]

/-- For a well-shaped entry the persisted-output filter coincides with the
six-slot populatedness test. -/
theorem entry_complete_eq_six (e : MtcEntry) (h : forms_keys_ok e) :
    entry_complete e = six_populated e := by
  unfold entry_complete six_populated
  rw [all_truthy_eq_three _ h.1, all_truthy_eq_three _ h.2]
  cases truthy_form ((List.lookup "sg" e.subject_forms).join) <;>
    cases truthy_form ((List.lookup "du" e.subject_forms).join) <;>
    cases truthy_form ((List.lookup "pl" e.subject_forms).join) <;>
    cases truthy_form ((List.lookup "sg" e.verb_forms).join) <;>
    cases truthy_form ((List.lookup "du" e.verb_forms).join) <;>
    cases truthy_form ((List.lookup "pl" e.verb_forms).join) <;> rfl

/-- Claim C3, amended: every entry emitted by `create_matching_game_data`
has all of its form slots populated; and when every input pair's number
lies in {sg, du, pl} (the only values the upstream generator produces), an
aggregated entry appears in the output iff all six of its subject sg/du/pl
and verb sg/du/pl slots are non-empty.  (A pair carrying any other number
string adds an extra slot to its group's dictionaries, and an empty extra
slot suppresses the entry even with all six named slots populated.) -/
theorem c3_matching_entry_completeness :
    (∀ (pairs : List MtcPair) (e : MtcEntry),
      e ∈ create_matching_game_data pairs → entry_complete e = true) ∧
    (∀ (pairs : List MtcPair) (e : MtcEntry),
      (∀ p ∈ pairs, p.subject.number = "sg" ∨ p.subject.number = "du" ∨
        p.subject.number = "pl") →
      (e ∈ create_matching_game_data pairs ↔
        e ∈ (build_game_data pairs).map Prod.snd ∧ six_populated e = true)) := by
  constructor
  · intro pairs e he
    exact (List.mem_filter.mp he).2
  · intro pairs e hn
    have hkeys : ∀ q ∈ build_game_data pairs, forms_keys_ok q.2 :=
      build_game_data_keys pairs [] hn (by simp)
    unfold create_matching_game_data
    rw [List.mem_filter]
    constructor
    · rintro ⟨hmem, hcomp⟩
      refine ⟨hmem, ?_⟩
      obtain ⟨q, hq, rfl⟩ := List.mem_map.mp hmem
      rw [← entry_complete_eq_six _ (hkeys q hq)]
      exact hcomp
    · rintro ⟨hmem, hsix⟩
      refine ⟨hmem, ?_⟩
      obtain ⟨q, hq, rfl⟩ := List.mem_map.mp hmem
      rw [entry_complete_eq_six _ (hkeys q hq)]
      exact hsix

/-- A matching-game pair with the given number and forms, sharing one
subject root and verb root so that all pairs land in one group. -/
def mkPair (num form vform : String) : MtcPair :=
  { subject := { root := "r", form := form, number := num, person := "3",
                 gender := none, stem := none },
    verb := { root := "v", form := vform, person := "3", number := num,
              vcls := "1P", meaning := "m", tense := "present" } }

/-- A pair list whose single group has all six sg/du/pl slots populated but
also carries an extra, empty slot under the number string `xx`. -/
def cexPairs : List MtcPair :=
  [mkPair "sg" "a" "p", mkPair "du" "b" "q", mkPair "pl" "c" "t", mkPair "xx" "" ""]

/-- Counterexample to claim C3 as stated: a group whose six named slots are
all populated is nevertheless dropped, because a pair with an unexpected
number string added an extra empty slot and the output filter tests every
slot of the dictionary. -/
theorem c3_counterexample :
    ((build_game_data cexPairs).map Prod.snd).all six_populated = true ∧
    (build_game_data cexPairs).length = 1 ∧
    create_matching_game_data cexPairs = [] := ⟨rfl, rfl, rfl⟩

/-- A well-formed pair list: one group, all three numbers present. -/
def goodPairs : List MtcPair :=
  [mkPair "sg" "a" "p", mkPair "du" "b" "q", mkPair "pl" "c" "t"]

/-- The entry aggregated from `goodPairs`. -/
def goodEntry : MtcEntry :=
  { subject_root := "r", verb_root := "v", tense := "present",
    subject_forms := [("sg", some "a"), ("du", some "b"), ("pl", some "c")],
    verb_forms := [("sg", some "p"), ("du", some "q"), ("pl", some "t")],
    meaning := "m" }

/-- Witness for C3 (amended) at a concrete pair list: the fully populated
entry is emitted. -/
theorem c3_matching_entry_completeness_witness :
    goodEntry ∈ create_matching_game_data goodPairs := by
  refine (c3_matching_entry_completeness.2 goodPairs goodEntry ?_).mpr ⟨?_, ?_⟩
  · decide
  · decide
  · decide

/-- The record shape of the synthesizer's no-object branch. -/
def sv_record (subject : Noun) (subject_form number person : String) (verb : Verb)
    (verb_form tense : String) : SentenceRecord :=
  { sentence := subject_form ++ " " ++ verb_form, tense := tense,
    subject := { root := subject.root, form := subject_form, number := number,
                 person := person, gender := subject.gender, stem := subject.stem_type },
    object := none,
    verb := { root := verb.root, form := verb_form, person := person, number := number,
              vcls := verb.verb_cls, meaning := verb.meaning.getD "" } }

/-- The record shape of the synthesizer's object branch. -/
def sov_record (subject : Noun) (subject_form number person : String) (verb : Verb)
    (verb_form tense : String) (m : Noun) (g obj_number : String) : SentenceRecord :=
  { sentence := subject_form ++ " " ++ g ++ " " ++ verb_form, tense := tense,
    subject := { root := subject.root, form := subject_form, number := number,
                 person := person, gender := subject.gender, stem := subject.stem_type },
    object := some { root := m.root, form := g, number := obj_number, person := "3",
                     gender := m.gender, stem := m.stem_type },
    verb := { root := verb.root, form := verb_form, person := person, number := number,
              vcls := verb.verb_cls, meaning := verb.meaning.getD "" } }

/-- With one qualifying allowed subject class and one qualifying subject
noun, an intransitive verb yields exactly one record per number. -/
theorem generate_intransitive_single (env : Env) (nouns : List Noun) (verb : Verb)
    (tense scls : String) (n : Noun) (fsg fdu fpl : String)
    (hro : verb.requires_object = false)
    (hsc : verb.allowed_subject_cls = [scls])
    (hvn : get_valid_nouns nouns scls "subject" = [n])
    (hsg : inflect_noun env { n with number := some "sg" } "subject" = some fsg)
    (hdu : inflect_noun env { n with number := some "du" } "subject" = some fdu)
    (hpl : inflect_noun env { n with number := some "pl" } "subject" = some fpl) :
    generate_sentence_for_verb env nouns verb tense =
      some [sv_record { n with number := some "sg" } fsg "sg" (person_for n.root) verb
              (get_verb_form env.conjugations verb (person_for n.root) "sg" tense) tense,
            sv_record { n with number := some "du" } fdu "du" (person_for n.root) verb
              (get_verb_form env.conjugations verb (person_for n.root) "du" tense) tense,
            sv_record { n with number := some "pl" } fpl "pl" (person_for n.root) verb
              (get_verb_form env.conjugations verb (person_for n.root) "pl" tense) tense] := by
  simp [generate_sentence_for_verb, hsc, hvn, numbers_list, mapM_opt, hro,
    hsg, hdu, hpl, sv_record]

/-- With one allowed object class and one qualifying object noun, the
object expansion yields exactly one record per object number. -/
theorem object_records_single (env : Env) (nouns : List Noun) (verb : Verb)
    (tense : String) (subject : Noun) (subject_form number person verb_form : String)
    (ocls : String) (m : Noun) (gsg gdu gpl : String)
    (ho : verb.allowed_object_cls = [ocls])
    (hm : get_valid_nouns nouns ocls "object" = [m])
    (h1 : inflect_noun env { m with number := some "sg" } "object" = some gsg)
    (h2 : inflect_noun env { m with number := some "du" } "object" = some gdu)
    (h3 : inflect_noun env { m with number := some "pl" } "object" = some gpl) :
    object_records env nouns verb tense subject subject_form number person verb_form =
      some [sov_record subject subject_form number person verb verb_form tense m gsg "sg",
            sov_record subject subject_form number person verb verb_form tense m gdu "du",
            sov_record subject subject_form number person verb verb_form tense m gpl "pl"] := by
  simp [object_records, ho, hm, numbers_list, mapM_opt, h1, h2, h3, sov_record]

/-- With one qualifying (class, noun) pair on each side, a transitive verb
yields exactly the nine subject-number x object-number records. -/
theorem generate_transitive_single (env : Env) (nouns : List Noun) (verb : Verb)
    (tense scls ocls : String) (n m : Noun) (fsg fdu fpl gsg gdu gpl : String)
    (hro : verb.requires_object = true)
    (hsc : verb.allowed_subject_cls = [scls])
    (ho : verb.allowed_object_cls = [ocls])
    (hvn : get_valid_nouns nouns scls "subject" = [n])
    (hm : get_valid_nouns nouns ocls "object" = [m])
    (hsg : inflect_noun env { n with number := some "sg" } "subject" = some fsg)
    (hdu : inflect_noun env { n with number := some "du" } "subject" = some fdu)
    (hpl : inflect_noun env { n with number := some "pl" } "subject" = some fpl)
    (hg1 : inflect_noun env { m with number := some "sg" } "object" = some gsg)
    (hg2 : inflect_noun env { m with number := some "du" } "object" = some gdu)
    (hg3 : inflect_noun env { m with number := some "pl" } "object" = some gpl) :
    generate_sentence_for_verb env nouns verb tense =
      some ((["sg", "du", "pl"].zip [fsg, fdu, fpl]).flatMap (fun sp =>
        (["sg", "du", "pl"].zip [gsg, gdu, gpl]).map (fun op =>
          sov_record { n with number := some sp.1 } sp.2 sp.1 (person_for n.root) verb
            (get_verb_form env.conjugations verb (person_for n.root) sp.1 tense) tense
            m op.2 op.1))) := by
  have o1 := object_records_single env nouns verb tense { n with number := some "sg" }
    fsg "sg" (person_for n.root)
    (get_verb_form env.conjugations verb (person_for n.root) "sg" tense)
    ocls m gsg gdu gpl ho hm hg1 hg2 hg3
  have o2 := object_records_single env nouns verb tense { n with number := some "du" }
    fdu "du" (person_for n.root)
    (get_verb_form env.conjugations verb (person_for n.root) "du" tense)
    ocls m gsg gdu gpl ho hm hg1 hg2 hg3
  have o3 := object_records_single env nouns verb tense { n with number := some "pl" }
    fpl "pl" (person_for n.root)
    (get_verb_form env.conjugations verb (person_for n.root) "pl" tense)
    ocls m gsg gdu gpl ho hm hg1 hg2 hg3
  simp [generate_sentence_for_verb, hsc, hvn, numbers_list, mapM_opt, hro,
    hsg, hdu, hpl, o1, o2, o3]

/-- Claim C8, amended: for a single tense, an intransitive verb with
exactly one qualifying (subject-class, noun) pair — a single allowed
subject class under which exactly one noun qualifies — yields exactly 3
records, one per subject number, each with no object and sentence
`subjectForm verbForm`; a transitive verb with additionally exactly one
qualifying (object-class, noun) pair yields exactly 9 records, each with
sentence `subjectForm objectForm verbForm`.  (The record count is 3 per
qualifying subject class-noun pair, so a noun qualifying under two listed
classes is enumerated twice.) -/
theorem c8_combinatorial_expansion :
    (∀ (env : Env) (nouns : List Noun) (verb : Verb) (tense scls : String)
       (n : Noun) (fsg fdu fpl : String),
      verb.requires_object = false →
      verb.allowed_subject_cls = [scls] →
      get_valid_nouns nouns scls "subject" = [n] →
      inflect_noun env { n with number := some "sg" } "subject" = some fsg →
      inflect_noun env { n with number := some "du" } "subject" = some fdu →
      inflect_noun env { n with number := some "pl" } "subject" = some fpl →
      ∃ l, generate_sentence_for_verb env nouns verb tense = some l ∧
        l.length = 3 ∧
        ∀ r ∈ l, r.object = none ∧
          r.sentence = r.subject.form ++ " " ++ r.verb.form) ∧
    (∀ (env : Env) (nouns : List Noun) (verb : Verb) (tense scls ocls : String)
       (n m : Noun) (fsg fdu fpl gsg gdu gpl : String),
      verb.requires_object = true →
      verb.allowed_subject_cls = [scls] →
      verb.allowed_object_cls = [ocls] →
      get_valid_nouns nouns scls "subject" = [n] →
      get_valid_nouns nouns ocls "object" = [m] →
      inflect_noun env { n with number := some "sg" } "subject" = some fsg →
      inflect_noun env { n with number := some "du" } "subject" = some fdu →
      inflect_noun env { n with number := some "pl" } "subject" = some fpl →
      inflect_noun env { m with number := some "sg" } "object" = some gsg →
      inflect_noun env { m with number := some "du" } "object" = some gdu →
      inflect_noun env { m with number := some "pl" } "object" = some gpl →
      ∃ l, generate_sentence_for_verb env nouns verb tense = some l ∧
        l.length = 9 ∧
        ∀ r ∈ l, ∃ o, r.object = some o ∧
          r.sentence = r.subject.form ++ " " ++ o.form ++ " " ++ r.verb.form) := by
  constructor
  · intro env nouns verb tense scls n fsg fdu fpl hro hsc hvn hsg hdu hpl
    refine ⟨_, generate_intransitive_single env nouns verb tense scls n fsg fdu fpl
      hro hsc hvn hsg hdu hpl, rfl, ?_⟩
    intro r hr
    simp only [List.mem_cons, List.not_mem_nil, or_false] at hr
    rcases hr with rfl | rfl | rfl <;> exact ⟨rfl, rfl⟩
  · intro env nouns verb tense scls ocls n m fsg fdu fpl gsg gdu gpl
      hro hsc ho hvn hm hsg hdu hpl hg1 hg2 hg3
    refine ⟨_, generate_transitive_single env nouns verb tense scls ocls n m
      fsg fdu fpl gsg gdu gpl hro hsc ho hvn hm hsg hdu hpl hg1 hg2 hg3, rfl, ?_⟩
    intro r hr
    rw [List.mem_flatMap] at hr
    obtain ⟨sp, _, hr⟩ := hr
    obtain ⟨op, _, rfl⟩ := List.mem_map.mp hr
    exact ⟨_, rfl, rfl⟩

/-- An intransitive verb listing two allowed subject classes. -/
def c8Verb : Verb :=
  { root := "गम्", verb_cls := "1P", future_stem := none, past_stem := none,
    requires_object := false, allowed_subject_cls := ["a", "b"],
    allowed_object_cls := [], meaning := none }

/-- A single noun qualifying under both of `c8Verb`'s subject classes. -/
def c8Noun : Noun :=
  { root := "n", gender := none, stem_type := none, entity_classes := ["a", "b"],
    usable_as_subject := true, usable_as_object := false, number := none }

/-- Counterexample to claim C8 as stated: one intransitive verb and exactly
one qualifying subject noun, yet six records are emitted, because the noun
qualifies under both listed subject classes and the synthesizer enumerates
per (class, noun) pair. -/
theorem c8_counterexample :
    c8Verb.requires_object = false ∧
    get_valid_nouns [c8Noun] "a" "subject" = [c8Noun] ∧
    get_valid_nouns [c8Noun] "b" "subject" = [c8Noun] ∧
    (generate_sentence_for_verb sampleEnv [c8Noun] c8Verb "present").map
      List.length = some 6 := ⟨rfl, rfl, rfl, rfl⟩

/-- A transitive verb over single subject and object classes. -/
def c8TrVerb : Verb :=
  { root := "पठ्", verb_cls := "1P", future_stem := none, past_stem := none,
    requires_object := true, allowed_subject_cls := ["a"],
    allowed_object_cls := ["t"], meaning := none }

/-- An object noun for the transitive witness. -/
def c8ObjNoun : Noun :=
  { root := "o", gender := none, stem_type := none, entity_classes := ["t"],
    usable_as_subject := false, usable_as_object := true, number := none }

/-- A subject noun qualifying only under class `a`. -/
def c8SubjNoun : Noun :=
  { root := "n", gender := none, stem_type := none, entity_classes := ["a"],
    usable_as_subject := true, usable_as_object := false, number := none }

/-- Witness for C8 (amended) at concrete single-pair inputs: 3 records for
the intransitive case and 9 for the transitive case. -/
theorem c8_combinatorial_expansion_witness :
    (∃ l, generate_sentence_for_verb sampleEnv [c8SubjNoun]
        { c8Verb with allowed_subject_cls := ["a"] } "present" = some l ∧
      l.length = 3 ∧
      ∀ r ∈ l, r.object = none ∧
        r.sentence = r.subject.form ++ " " ++ r.verb.form) ∧
    (∃ l, generate_sentence_for_verb sampleEnv [c8SubjNoun, c8ObjNoun]
        c8TrVerb "present" = some l ∧
      l.length = 9 ∧
      ∀ r ∈ l, ∃ o, r.object = some o ∧
        r.sentence = r.subject.form ++ " " ++ o.form ++ " " ++ r.verb.form) := by
  constructor
  · exact c8_combinatorial_expansion.1 sampleEnv [c8SubjNoun]
      { c8Verb with allowed_subject_cls := ["a"] } "present" "a" c8SubjNoun
      "n" "n" "n" rfl rfl rfl rfl rfl rfl
  · exact c8_combinatorial_expansion.2 sampleEnv [c8SubjNoun, c8ObjNoun]
      c8TrVerb "present" "a" "t" c8SubjNoun c8ObjNoun
      "n" "n" "n" "o" "o" "o" rfl rfl rfl rfl rfl rfl rfl rfl rfl rfl rfl
